import Mathlib

/-!
Shallow embedding of the chess rules engine (DannyPeck/chess).

The embedding follows `src/piece.rs`, `src/board.rs` (board state and
mutation primitives), `src/board/position.rs`, `src/board/file.rs`,
`src/board/rank.rs`, `src/board/utils.rs` (move generator, executor,
legality filter, classifier, move text rendering) and `src/game.rs`
(the Game session).  Rust's `HashMap` is represented as an association
list with replace-on-insert semantics and `HashSet` as a duplicate-free
list; iteration order is the insertion order of the embedding, which is
irrelevant to every property proved below (membership, emptiness and
counts of distinct keys).  Rust `panic!`/`unwrap` failures are modelled
by a distinguished `panicked` outcome, kept apart from `Err` returns.
-/

namespace Chess

/-- Piece kinds, from `src/piece.rs` (`enum PieceType`). -/
inductive PieceType where
  | pawn
  | knight
  | bishop
  | rook
  | queen
  | king
deriving DecidableEq, Repr

/-- Point value of a piece kind, from `PieceType::value` in `src/piece.rs`. -/
def PieceType.value : PieceType → Int
  | .pawn => 1
  | .knight => 3
  | .bishop => 3
  | .rook => 5
  | .queen => 9
  | .king => 0

/-- Promotion choices, from `enum PromotionType` in `src/piece.rs`. -/
inductive PromotionType where
  | knight
  | bishop
  | rook
  | queen
deriving DecidableEq, Repr

/-- `PromotionType::to_piece_type` in `src/piece.rs`. -/
def PromotionType.to_piece_type : PromotionType → PieceType
  | .knight => .knight
  | .bishop => .bishop
  | .rook => .rook
  | .queen => .queen

/-- `PromotionType::to_algebraic` in `src/piece.rs`. -/
def PromotionType.to_algebraic : PromotionType → Char
  | .knight => 'N'
  | .bishop => 'B'
  | .rook => 'R'
  | .queen => 'Q'

/-- The two sides, from `enum Side` in `src/piece.rs`. -/
inductive Side where
  | white
  | black
deriving DecidableEq, Repr

/-- `Side::opponent` in `src/piece.rs`. -/
def Side.opponent : Side → Side
  | .white => .black
  | .black => .white

/-- A piece, from `struct Piece` in `src/piece.rs`. -/
structure Piece where
  piece_type : PieceType
  side : Side
deriving DecidableEq, Repr

/-- `Piece::new`. -/
def Piece.new (piece_type : PieceType) (side : Side) : Piece :=
  { piece_type := piece_type, side := side }

namespace file

/-- File constants from `src/board/file.rs`: files a..h are 0..7. -/
def A : Nat := 0
def B : Nat := 1
def C : Nat := 2
def D : Nat := 3
def E : Nat := 4
def F : Nat := 5
def G : Nat := 6
def H : Nat := 7
def LENGTH : Nat := 8

/-- `file::valid` in `src/board/file.rs` (argument is an `i32` in Rust). -/
def valid (f : Int) : Bool :=
  decide (0 ≤ f) && decide (f ≤ 7)

/-- `file::to_char` in `src/board/file.rs`. -/
def to_char (f : Nat) : Char :=
  match f with
  | 0 => 'a'
  | 1 => 'b'
  | 2 => 'c'
  | 3 => 'd'
  | 4 => 'e'
  | 5 => 'f'
  | 6 => 'g'
  | 7 => 'h'
  | _ => '?'

end file

namespace rank

/-- Rank constants from `src/board/rank.rs`: ranks 1..8 are 0..7. -/
def ONE : Nat := 0
def TWO : Nat := 1
def THREE : Nat := 2
def FOUR : Nat := 3
def FIVE : Nat := 4
def SIX : Nat := 5
def SEVEN : Nat := 6
def EIGHT : Nat := 7
def LENGTH : Nat := 8

/-- `rank::valid` in `src/board/rank.rs`. -/
def valid (r : Int) : Bool :=
  decide (0 ≤ r) && decide (r ≤ 7)

/-- `rank::to_char` in `src/board/rank.rs`. -/
def to_char (r : Nat) : Char :=
  match r with
  | 0 => '1'
  | 1 => '2'
  | 2 => '3'
  | 3 => '4'
  | 4 => '5'
  | 5 => '6'
  | 6 => '7'
  | 7 => '8'
  | _ => '?'

end rank

/-- A square, from `struct Position(usize)` in `src/board/position.rs`:
a flat index, file = index mod 8, rank = index div 8. -/
structure Position where
  val : Nat
deriving DecidableEq, Repr

/-- `Position::value`. -/
def Position.value (p : Position) : Nat := p.val

/-- `Position::rank` (`self.0 / rank::LENGTH`). -/
def Position.rank (p : Position) : Nat := p.val / 8

/-- `Position::file` (`self.0 % file::LENGTH`). -/
def Position.file (p : Position) : Nat := p.val % 8

/-- `Position::from_file_and_rank` (`(rank * 8) + file`).  The Rust
function panics when handed an out-of-range file or rank; every caller
in the repository passes values already validated to lie in 0..7. -/
def Position.from_file_and_rank (file : Nat) (rank : Nat) : Position :=
  ⟨rank * 8 + file⟩

/-- A directional offset, from `struct Offset` in `src/board/position.rs`. -/
structure Offset where
  file_offset : Int
  rank_offset : Int
deriving DecidableEq, Repr

/-- `Offset::new`. -/
def Offset.new (file_offset rank_offset : Int) : Offset :=
  { file_offset := file_offset, rank_offset := rank_offset }

/-- `Position::from_offset` in `src/board/position.rs`: apply an offset,
`none` when the target falls outside the board. -/
def Position.from_offset (start : Position) (offset : Offset) : Option Position :=
  let new_file : Int := (start.file : Int) + offset.file_offset
  let new_rank : Int := (start.rank : Int) + offset.rank_offset
  if !(file.valid new_file) || !(rank.valid new_rank) then
    none
  else
    some (Position.from_file_and_rank new_file.toNat new_rank.toNat)

/-- Named squares a1..h8 from `src/board/position.rs`. -/
def Position.a1 : Position := ⟨0⟩
def Position.b1 : Position := ⟨1⟩
def Position.c1 : Position := ⟨2⟩
def Position.d1 : Position := ⟨3⟩
def Position.e1 : Position := ⟨4⟩
def Position.f1 : Position := ⟨5⟩
def Position.g1 : Position := ⟨6⟩
def Position.h1 : Position := ⟨7⟩
def Position.a2 : Position := ⟨8⟩
def Position.b2 : Position := ⟨9⟩
def Position.c2 : Position := ⟨10⟩
def Position.d2 : Position := ⟨11⟩
def Position.e2 : Position := ⟨12⟩
def Position.f2 : Position := ⟨13⟩
def Position.g2 : Position := ⟨14⟩
def Position.h2 : Position := ⟨15⟩
def Position.a3 : Position := ⟨16⟩
def Position.b3 : Position := ⟨17⟩
def Position.c3 : Position := ⟨18⟩
def Position.d3 : Position := ⟨19⟩
def Position.e3 : Position := ⟨20⟩
def Position.f3 : Position := ⟨21⟩
def Position.g3 : Position := ⟨22⟩
def Position.h3 : Position := ⟨23⟩
def Position.a4 : Position := ⟨24⟩
def Position.b4 : Position := ⟨25⟩
def Position.c4 : Position := ⟨26⟩
def Position.d4 : Position := ⟨27⟩
def Position.e4 : Position := ⟨28⟩
def Position.f4 : Position := ⟨29⟩
def Position.g4 : Position := ⟨30⟩
def Position.h4 : Position := ⟨31⟩
def Position.a5 : Position := ⟨32⟩
def Position.b5 : Position := ⟨33⟩
def Position.c5 : Position := ⟨34⟩
def Position.d5 : Position := ⟨35⟩
def Position.e5 : Position := ⟨36⟩
def Position.f5 : Position := ⟨37⟩
def Position.g5 : Position := ⟨38⟩
def Position.h5 : Position := ⟨39⟩
def Position.a6 : Position := ⟨40⟩
def Position.b6 : Position := ⟨41⟩
def Position.c6 : Position := ⟨42⟩
def Position.d6 : Position := ⟨43⟩
def Position.e6 : Position := ⟨44⟩
def Position.f6 : Position := ⟨45⟩
def Position.g6 : Position := ⟨46⟩
def Position.h6 : Position := ⟨47⟩
def Position.a7 : Position := ⟨48⟩
def Position.b7 : Position := ⟨49⟩
def Position.c7 : Position := ⟨50⟩
def Position.d7 : Position := ⟨51⟩
def Position.e7 : Position := ⟨52⟩
def Position.f7 : Position := ⟨53⟩
def Position.g7 : Position := ⟨54⟩
def Position.h7 : Position := ⟨55⟩
def Position.a8 : Position := ⟨56⟩
def Position.b8 : Position := ⟨57⟩
def Position.c8 : Position := ⟨58⟩
def Position.d8 : Position := ⟨59⟩
def Position.e8 : Position := ⟨60⟩
def Position.f8 : Position := ⟨61⟩
def Position.g8 : Position := ⟨62⟩
def Position.h8 : Position := ⟨63⟩

/-- Text of a square (its `Display` impl): file letter then rank digit. -/
def Position.toText (p : Position) : String :=
  (("").push (file.to_char p.file)).push (rank.to_char p.rank)

/-- Castling rights record, from `struct CastleRights` in `src/board.rs`. -/
structure CastleRights where
  white_short_castle_rights : Bool
  white_long_castle_rights : Bool
  black_short_castle_rights : Bool
  black_long_castle_rights : Bool
deriving DecidableEq, Repr

/-- `CastleRights::new`. -/
def CastleRights.new (ws wl bs bl : Bool) : CastleRights :=
  { white_short_castle_rights := ws, white_long_castle_rights := wl,
    black_short_castle_rights := bs, black_long_castle_rights := bl }

/-- HashSet insert on the duplicate-free list representation. -/
def setInsert (s : List Position) (p : Position) : List Position :=
  if p ∈ s then s else p :: s

/-- HashSet remove: drop the element (all copies) from the list. -/
def setRemove (s : List Position) (p : Position) : List Position :=
  s.filter (fun q => q != p)

/-- Pointwise update of the square-indexed array of pieces. -/
def updateAt (f : Nat → Option Piece) (i : Nat) (v : Option Piece) : Nat → Option Piece :=
  fun j => if j = i then v else f j

/-- Board state, from `struct Board` in `src/board.rs`.  The 64-cell
array `positions: [Option<Piece>; 64]` is represented as a total map
from the square index; the repository only ever reads and writes
indices below 64 (reached through validated `Position` values).
`half_moves` and `full_moves` are `u32` in the source: they are held as
`Nat` and every increment the code performs is taken modulo `2 ^ 32`,
the release-build wrapping semantics of `u32` (debug builds would panic
at `u32::MAX` instead). -/
structure Board where
  positions : Nat → Option Piece
  white_pieces : List Position
  black_pieces : List Position
  current_turn : Side
  castle_rights : CastleRights
  en_passant_target : Option Position
  half_moves : Nat
  full_moves : Nat

/-- `Board::empty` in `src/board.rs`. -/
def Board.empty : Board :=
  { positions := fun _ => none
    white_pieces := []
    black_pieces := []
    current_turn := .white
    castle_rights := CastleRights.new true true true true
    en_passant_target := none
    half_moves := 0
    full_moves := 1 }

/-- `Board::get_piece`. -/
def Board.get_piece (b : Board) (position : Position) : Option Piece :=
  b.positions position.val

/-- `Board::set_position` in `src/board.rs`: maintain the side sets,
then write the square. -/
def Board.set_position (b : Board) (position : Position) (opt_piece : Option Piece) : Board :=
  let b1 :=
    match b.positions position.val with
    | some piece =>
      match piece.side with
      | .white => { b with white_pieces := setRemove b.white_pieces position }
      | .black => { b with black_pieces := setRemove b.black_pieces position }
    | none => b
  let b2 := { b1 with positions := updateAt b1.positions position.val none }
  let b3 :=
    match opt_piece with
    | some piece =>
      match piece.side with
      | .white => { b2 with white_pieces := setInsert b2.white_pieces position }
      | .black => { b2 with black_pieces := setInsert b2.black_pieces position }
    | none => b2
  { b3 with positions := updateAt b3.positions position.val opt_piece }

/-- `Board::take_piece` in `src/board.rs`: remove and return the
occupant of a square, maintaining the side sets. -/
def Board.take_piece (b : Board) (position : Position) : Option Piece × Board :=
  let opt_piece := b.positions position.val
  let b1 := { b with positions := updateAt b.positions position.val none }
  match opt_piece with
  | some piece =>
    match piece.side with
    | .white => (opt_piece, { b1 with white_pieces := setRemove b1.white_pieces position })
    | .black => (opt_piece, { b1 with black_pieces := setRemove b1.black_pieces position })
  | none => (opt_piece, b1)

/-- `Board::add_piece`. -/
def Board.add_piece (b : Board) (position : Position) (piece : Piece) : Board :=
  b.set_position position (some piece)

/-- `Board::add_pieces`. -/
def Board.add_pieces (b : Board) (pieces : List (Position × Piece)) : Board :=
  pieces.foldl (fun acc pp => acc.add_piece pp.1 pp.2) b

/-- `Board::new` in `src/board.rs`. -/
def Board.new (pieces : List (Position × Piece)) (current_turn : Side)
    (castle_rights : CastleRights) (en_passant_target : Option Position)
    (half_moves full_moves : Nat) : Board :=
  Board.add_pieces
    { positions := fun _ => none
      white_pieces := []
      black_pieces := []
      current_turn := current_turn
      castle_rights := castle_rights
      en_passant_target := en_passant_target
      half_moves := half_moves
      full_moves := full_moves }
    pieces

/-- `Board::change_turn` in `src/board.rs`: toggle the side to move and
bump the full-move number after Black's move (`full_moves += 1` on a
`u32`: modulo `2 ^ 32`). -/
def Board.change_turn (b : Board) : Board :=
  match b.current_turn with
  | .white => { b with current_turn := .black }
  | .black => { b with current_turn := .white, full_moves := (b.full_moves + 1) % 2 ^ 32 }

/-- `Board::contains_piece`. -/
def contains_piece (board : Board) (position : Position) : Bool :=
  (board.get_piece position).isSome

/-- `contains_enemy_piece` in `src/board/utils.rs`. -/
def contains_enemy_piece (board : Board) (position : Position) (side : Side) : Bool :=
  match board.get_piece position with
  | some piece => piece.side != side
  | none => false

/-- `are_positions_empty` in `src/board/utils.rs`. -/
def are_positions_empty (board : Board) (positions : List Position) : Bool :=
  positions.all (fun p => !(contains_piece board p))

/-- `is_en_passant_target` in `src/board/utils.rs`. -/
def is_en_passant_target (board : Board) (position : Position) : Bool :=
  match board.en_passant_target with
  | some en_passant_target => position == en_passant_target
  | none => false

/-- `Board::default` in `src/board.rs`: the standard starting position. -/
def Board.default : Board :=
  Board.empty.add_pieces
    [ (Position.a2, Piece.new .pawn .white)
    , (Position.b2, Piece.new .pawn .white)
    , (Position.c2, Piece.new .pawn .white)
    , (Position.d2, Piece.new .pawn .white)
    , (Position.e2, Piece.new .pawn .white)
    , (Position.f2, Piece.new .pawn .white)
    , (Position.g2, Piece.new .pawn .white)
    , (Position.h2, Piece.new .pawn .white)
    , (Position.a1, Piece.new .rook .white)
    , (Position.b1, Piece.new .knight .white)
    , (Position.c1, Piece.new .bishop .white)
    , (Position.d1, Piece.new .queen .white)
    , (Position.e1, Piece.new .king .white)
    , (Position.f1, Piece.new .bishop .white)
    , (Position.g1, Piece.new .knight .white)
    , (Position.h1, Piece.new .rook .white)
    , (Position.a7, Piece.new .pawn .black)
    , (Position.b7, Piece.new .pawn .black)
    , (Position.c7, Piece.new .pawn .black)
    , (Position.d7, Piece.new .pawn .black)
    , (Position.e7, Piece.new .pawn .black)
    , (Position.f7, Piece.new .pawn .black)
    , (Position.g7, Piece.new .pawn .black)
    , (Position.h7, Piece.new .pawn .black)
    , (Position.a8, Piece.new .rook .black)
    , (Position.b8, Piece.new .knight .black)
    , (Position.c8, Piece.new .bishop .black)
    , (Position.d8, Piece.new .queen .black)
    , (Position.e8, Piece.new .king .black)
    , (Position.f8, Piece.new .bishop .black)
    , (Position.g8, Piece.new .knight .black)
    , (Position.h8, Piece.new .rook .black)
    ]

/-- Game-state classification, from `enum MoveState` in `src/board/utils.rs`. -/
inductive MoveState where
  | canMove
  | stalemate
  | check
  | checkmate
deriving DecidableEq, Repr

/-- Move classification, from `enum MoveKind` in `src/board/utils.rs`.
`doubleMove` carries the en-passant target square, `enPassant` the square
of the captured pawn, `promotion` whether the promotion also captures. -/
inductive MoveKind where
  | move
  | doubleMove (en_passant_target : Position)
  | capture
  | enPassant (capture_position : Position)
  | shortCastle
  | longCastle
  | promotion (is_capture : Bool)
deriving DecidableEq, Repr

/-- A move request, from `struct MoveRequest` in `src/board/utils.rs`.
The Rust field `end` is called `end_` here (`end` is reserved in Lean). -/
structure MoveRequest where
  start : Position
  end_ : Position
  promotion : Option PromotionType
deriving DecidableEq, Repr

/-- `MoveRequest::new`. -/
def MoveRequest.new (start end_ : Position) : MoveRequest :=
  { start := start, end_ := end_, promotion := none }

/-- `MoveRequest::promotion`. -/
def MoveRequest.promotionReq (start end_ : Position) (promotion_type : PromotionType) : MoveRequest :=
  { start := start, end_ := end_, promotion := some promotion_type }

/-- Error type, from `struct MoveError(String)` in `src/board/utils.rs`. -/
structure MoveError where
  msg : String
deriving DecidableEq, Repr

/-- Error payloads used by the move pipeline (`src/board/utils.rs`, `src/game.rs`). -/
def noEligiblePieceErr : MoveError :=
  ⟨"Unable to find a piece for the current player at the provided position."⟩
def noPieceErr : MoveError := ⟨"No piece found at the provided position."⟩
def invalidMoveErr : MoveError := ⟨"Provided move is not valid."⟩
def missingPromotionErr : MoveError := ⟨"Invalid move request, missing promotion data."⟩
def castleThroughCheckErr : MoveError := ⟨"Invalid move, cannot move through check."⟩
def gameOverErr : MoveError := ⟨"Game is over."⟩
def invalidMoveGameErr : MoveError := ⟨"Invalid move."⟩

/-- Decidable equality for `Except` results, used to evaluate the
pipeline on concrete boards. -/
instance {e a : Type} [DecidableEq e] [DecidableEq a] : DecidableEq (Except e a) := fun x y =>
  match x, y with
  | .error u, .error v => decidable_of_iff (u = v) (by simp)
  | .ok u, .ok v => decidable_of_iff (u = v) (by simp)
  | .error _, .ok _ => isFalse (by simp)
  | .ok _, .error _ => isFalse (by simp)

/-- Post-execution record, from `struct MoveInfo` in `src/board/utils.rs`. -/
structure MoveInfo where
  start : Position
  end_ : Position
  piece_type : PieceType
  is_capture : Bool
  file_disambiguation : Bool
  rank_disambiguation : Bool
  move_kind : MoveKind
  move_state : Option MoveState
  promotion : Option PromotionType
deriving DecidableEq, Repr

/-- HashMap insert (replace-on-collision) on the association-list
representation of `HashMap<Position, _>`. -/
def mapInsert {α : Type} (m : List (Position × α)) (k : Position) (v : α) : List (Position × α) :=
  (k, v) :: m.filter (fun e => e.1 != k)

/-- HashMap lookup on the association-list representation. -/
def mapLookup {α : Type} (m : List (Position × α)) (k : Position) : Option α :=
  match m.find? (fun e => e.1 == k) with
  | some e => some e.2
  | none => none

/-- The en-passant closure inside `get_pawn_moves` (`src/board/utils.rs`):
for a diagonal destination, the square of the pawn that would be captured
en passant, provided it matches the board's current en-passant target. -/
def pawn_en_passant_move (board : Board) (side : Side) (new_position : Position) : Option Position :=
  let en_passant_target :=
    match side with
    | .white => Position.from_file_and_rank new_position.file (new_position.rank - 1)
    | .black => Position.from_file_and_rank new_position.file (new_position.rank + 1)
  if is_en_passant_target board en_passant_target then some en_passant_target else none

/-- One iteration of the diagonal-capture loop inside `get_pawn_moves`. -/
def pawn_diagonal_step (board : Board) (start : Position) (side : Side) (promotion_rank : Nat)
    (m : List (Position × MoveKind)) (diagonal_move : Offset) : List (Position × MoveKind) :=
  match Position.from_offset start diagonal_move with
  | some new_position =>
    if contains_enemy_piece board new_position side then
      let move_kind :=
        if new_position.rank = promotion_rank then MoveKind.promotion true else MoveKind.capture
      mapInsert m new_position move_kind
    else
      match pawn_en_passant_move board side new_position with
      | some en_passant_capture => mapInsert m new_position (MoveKind.enPassant en_passant_capture)
      | none => m
  | none => m

/-- `get_pawn_moves` in `src/board/utils.rs`.  The Rust loop over
`vec![left_diagonal, right_diagonal]` is unrolled into two
`pawn_diagonal_step` applications. -/
def get_pawn_moves (board : Board) (start : Position) (side : Side) : List (Position × MoveKind) :=
  let forward_one : Offset := match side with | .white => ⟨0, 1⟩ | .black => ⟨0, -1⟩
  let left_diagonal : Offset := match side with | .white => ⟨-1, 1⟩ | .black => ⟨1, -1⟩
  let right_diagonal : Offset := match side with | .white => ⟨1, 1⟩ | .black => ⟨-1, -1⟩
  let promotion_rank : Nat := match side with | .white => rank.EIGHT | .black => rank.ONE
  let m : List (Position × MoveKind) := []
  let m :=
    match Position.from_offset start forward_one with
    | some new_position =>
      if !(contains_piece board new_position) then
        let move_kind :=
          if new_position.rank = promotion_rank then MoveKind.promotion false else MoveKind.move
        mapInsert m new_position move_kind
      else m
    | none => m
  let double_move_positions : Option (Position × Position) :=
    match side with
    | .white =>
      if start.rank = rank.TWO then
        some (Position.from_file_and_rank start.file (start.rank + 1),
              Position.from_file_and_rank start.file (start.rank + 2))
      else none
    | .black =>
      if start.rank = rank.SEVEN then
        some (Position.from_file_and_rank start.file (start.rank - 1),
              Position.from_file_and_rank start.file (start.rank - 2))
      else none
  let m :=
    match double_move_positions with
    | some fw =>
      if !(contains_piece board fw.1) && !(contains_piece board fw.2) then
        mapInsert m fw.2 (MoveKind.doubleMove fw.1)
      else m
    | none => m
  let m := pawn_diagonal_step board start side promotion_rank m left_diagonal
  pawn_diagonal_step board start side promotion_rank m right_diagonal

/-- `get_knight_moves` in `src/board/utils.rs`. -/
def get_knight_moves (board : Board) (start : Position) (side : Side) : List (Position × MoveKind) :=
  let offsets : List Offset :=
    [⟨1, 2⟩, ⟨2, 1⟩, ⟨1, -2⟩, ⟨2, -1⟩, ⟨-1, 2⟩, ⟨-2, 1⟩, ⟨-2, -1⟩, ⟨-1, -2⟩]
  offsets.foldl
    (fun m offset =>
      match Position.from_offset start offset with
      | some new_position =>
        if contains_enemy_piece board new_position side then
          mapInsert m new_position MoveKind.capture
        else if !(contains_piece board new_position) then
          mapInsert m new_position MoveKind.move
        else m
      | none => m)
    []

/-- Step outcome for ray casting, from `enum WhileMoveResult` in `src/board/utils.rs`. -/
inductive WhileMoveResult where
  | Continue
  | Capture
  | Stop

/-- The `while let` loop of `add_while_valid`, with explicit fuel.  The
offset is nonzero (the caller filters no-op offsets out), so a ray takes
at most 7 successful steps across the 8x8 board and fuel 8 is exact:
the loop always exits by running off the board or hitting a piece
before the fuel does. -/
def add_while_valid_go (filter : Position → WhileMoveResult) (offset : Offset) :
    Nat → Position → List (Position × MoveKind) → List (Position × MoveKind)
  | 0, _, m => m
  | fuel + 1, current_position, m =>
    match Position.from_offset current_position offset with
    | some new_position =>
      match filter new_position with
      | .Continue =>
        add_while_valid_go filter offset fuel new_position (mapInsert m new_position MoveKind.move)
      | .Capture => mapInsert m new_position MoveKind.capture
      | .Stop => m
    | none => m

/-- `add_while_valid` in `src/board/utils.rs`. -/
def add_while_valid (start : Position) (offset : Offset) (filter : Position → WhileMoveResult)
    (valid_positions : List (Position × MoveKind)) : List (Position × MoveKind) :=
  if offset.file_offset = 0 ∧ offset.rank_offset = 0 then valid_positions
  else add_while_valid_go filter offset 8 start valid_positions

/-- `get_while_valid` in `src/board/utils.rs`. -/
def get_while_valid (board : Board) (position : Position) (side : Side)
    (offsets : List Offset) : List (Position × MoveKind) :=
  let filter := fun new_position =>
    if !(contains_piece board new_position) then WhileMoveResult.Continue
    else if contains_enemy_piece board new_position side then WhileMoveResult.Capture
    else WhileMoveResult.Stop
  offsets.foldl (fun m offset => add_while_valid position offset filter m) []

/-- `get_rook_moves` in `src/board/utils.rs`. -/
def get_rook_moves (board : Board) (start : Position) (side : Side) : List (Position × MoveKind) :=
  get_while_valid board start side [⟨1, 0⟩, ⟨0, 1⟩, ⟨-1, 0⟩, ⟨0, -1⟩]

/-- `get_bishop_moves` in `src/board/utils.rs`. -/
def get_bishop_moves (board : Board) (start : Position) (side : Side) : List (Position × MoveKind) :=
  get_while_valid board start side [⟨1, 1⟩, ⟨-1, 1⟩, ⟨1, -1⟩, ⟨-1, -1⟩]

/-- `get_queen_moves` in `src/board/utils.rs`. -/
def get_queen_moves (board : Board) (start : Position) (side : Side) : List (Position × MoveKind) :=
  get_while_valid board start side
    [⟨1, 0⟩, ⟨0, 1⟩, ⟨-1, 0⟩, ⟨0, -1⟩, ⟨1, 1⟩, ⟨-1, 1⟩, ⟨1, -1⟩, ⟨-1, -1⟩]

/-- `get_king_moves` in `src/board/utils.rs`: one-step moves plus the
castling availability test (rights set and the squares between king and
rook empty; attack safety is the legality filter's concern). -/
def get_king_moves (board : Board) (start : Position) (side : Side) : List (Position × MoveKind) :=
  let offsets : List Offset :=
    [⟨1, 0⟩, ⟨0, 1⟩, ⟨-1, 0⟩, ⟨0, -1⟩, ⟨1, 1⟩, ⟨-1, 1⟩, ⟨1, -1⟩, ⟨-1, -1⟩]
  let m :=
    offsets.foldl
      (fun m offset =>
        match Position.from_offset start offset with
        | some new_position =>
          if contains_enemy_piece board new_position side then
            mapInsert m new_position MoveKind.capture
          else if !(contains_piece board new_position) then
            mapInsert m new_position MoveKind.move
          else m
        | none => m)
      []
  match side with
  | .white =>
    let m :=
      if board.castle_rights.white_short_castle_rights &&
          are_positions_empty board [Position.f1, Position.g1] then
        mapInsert m Position.g1 MoveKind.shortCastle
      else m
    if board.castle_rights.white_long_castle_rights &&
        are_positions_empty board [Position.b1, Position.c1, Position.d1] then
      mapInsert m Position.c1 MoveKind.longCastle
    else m
  | .black =>
    let m :=
      if board.castle_rights.black_short_castle_rights &&
          are_positions_empty board [Position.f8, Position.g8] then
        mapInsert m Position.g8 MoveKind.shortCastle
      else m
    if board.castle_rights.black_long_castle_rights &&
        are_positions_empty board [Position.b8, Position.c8, Position.d8] then
      mapInsert m Position.c8 MoveKind.longCastle
    else m

/-- `get_piece_moves` in `src/board/utils.rs`: dispatch on the piece at
the origin square, failing when it is absent or belongs to the other side. -/
def get_piece_moves (board : Board) (side : Side) (start : Position) :
    Except MoveError (List (Position × MoveKind)) :=
  match board.get_piece start with
  | some piece =>
    if piece.side = side then
      .ok
        (match piece.piece_type with
        | .pawn => get_pawn_moves board start piece.side
        | .rook => get_rook_moves board start piece.side
        | .knight => get_knight_moves board start piece.side
        | .bishop => get_bishop_moves board start piece.side
        | .king => get_king_moves board start piece.side
        | .queen => get_queen_moves board start piece.side)
    else .error noEligiblePieceErr
  | none => .error noPieceErr

/-- `get_all_moves` in `src/board/utils.rs`: every piece of the side,
mapped to its pseudo-legal moves. -/
def get_all_moves (board : Board) (side : Side) :
    List (Position × List (Position × MoveKind)) :=
  let piece_positions := match side with | .white => board.white_pieces | .black => board.black_pieces
  piece_positions.foldl
    (fun all_moves position =>
      match get_piece_moves board side position with
      | .ok moves => mapInsert all_moves position moves
      | .error _ => all_moves)
    []

/-- `get_all_target_positions` in `src/board/utils.rs`: the union of the
side's pseudo-legal destination squares. -/
def get_all_target_positions (board : Board) (side : Side) : List Position :=
  let piece_positions := match side with | .white => board.white_pieces | .black => board.black_pieces
  piece_positions.foldl
    (fun all_target_positions position =>
      match get_piece_moves board side position with
      | .ok moves => moves.foldl (fun acc kv => setInsert acc kv.1) all_target_positions
      | .error _ => all_target_positions)
    []

/-- `is_in_check` in `src/board/utils.rs`: some opponent pseudo-legal
destination holds this side's king. -/
def is_in_check (board : Board) (side : Side) : Bool :=
  let opponent_side := side.opponent
  let all_opponent_target_positions := get_all_target_positions board opponent_side
  all_opponent_target_positions.any
    (fun target_position => board.get_piece target_position == some (Piece.new .king side))

/-- `get_move` in `src/board/utils.rs`: resolve a request to a move kind,
rejecting promotions that carry no promotion choice. -/
def get_move (board : Board) (request : MoveRequest) : Except MoveError MoveKind :=
  match get_piece_moves board board.current_turn request.start with
  | .error e => .error e
  | .ok moves =>
    match mapLookup moves request.end_ with
    | none => .error invalidMoveErr
    | some move_kind =>
      match move_kind, request.promotion with
      | .promotion _, none => .error missingPromotionErr
      | _, _ => .ok move_kind

/-- The castling-filter test inside `move_piece` (`src/board/utils.rs`):
is the king's transit square among the opponent's pseudo-legal targets. -/
def pass_through_check (board : Board) (side : Side) (move_kind : MoveKind) : Bool :=
  let opponent := side.opponent
  let opponent_target_positions := get_all_target_positions board opponent
  match side, move_kind with
  | .white, .shortCastle => opponent_target_positions.contains Position.f1
  | .white, .longCastle => opponent_target_positions.contains Position.d1
  | .black, .shortCastle => opponent_target_positions.contains Position.f8
  | .black, .longCastle => opponent_target_positions.contains Position.d8
  | _, _ => false

/-- Outcome of the executor.  `err` models a Rust `Err(MoveError)`
return; `panicked` models a Rust `unwrap()` panic (which never returns
to the caller and is unreachable in the executions the claims touch). -/
inductive ExecResult where
  | ok (info : MoveInfo)
  | err (e : MoveError)
  | panicked
deriving DecidableEq, Repr

/-- `ExecResult.isOk` mirrors Rust's `Result::is_ok`. -/
def ExecResult.isOk : ExecResult → Bool
  | .ok _ => true
  | _ => false

/-- The rook relocation inside the castling block of `move_piece`
(`let rook = take_piece(src).unwrap(); set_position(dst, rook)`).
The Bool is true when the Rust code would panic (castling rook absent). -/
def castle_move_rook (b : Board) (src dst : Position) : Bool × Board :=
  match b.take_piece src with
  | (some rook, b2) => (false, b2.set_position dst (some rook))
  | (none, b2) => (true, b2)

/-- The castling-rights / rook-relocation block of `move_piece`
(`src/board/utils.rs`, the match on the moving piece's type and side).
The Bool is true when the Rust code would panic (castling rook absent). -/
def castle_update (b : Board) (start : Position) (move_kind : MoveKind) (moving_piece : Piece) :
    Bool × Board :=
  match moving_piece.piece_type, moving_piece.side with
  | .rook, .white =>
    if start = Position.a1 then
      (false, { b with castle_rights := { b.castle_rights with white_long_castle_rights := false } })
    else if start = Position.h1 then
      (false, { b with castle_rights := { b.castle_rights with white_short_castle_rights := false } })
    else (false, b)
  | .rook, .black =>
    if start = Position.a8 then
      (false, { b with castle_rights := { b.castle_rights with black_long_castle_rights := false } })
    else if start = Position.h8 then
      (false, { b with castle_rights := { b.castle_rights with black_short_castle_rights := false } })
    else (false, b)
  | .king, .white =>
    let b1 := { b with castle_rights :=
      { b.castle_rights with white_long_castle_rights := false, white_short_castle_rights := false } }
    match move_kind with
    | .shortCastle => castle_move_rook b1 Position.h1 Position.f1
    | .longCastle => castle_move_rook b1 Position.a1 Position.d1
    | _ => (false, b1)
  | .king, .black =>
    let b1 := { b with castle_rights :=
      { b.castle_rights with black_long_castle_rights := false, black_short_castle_rights := false } }
    match move_kind with
    | .shortCastle => castle_move_rook b1 Position.h8 Position.f8
    | .longCastle => castle_move_rook b1 Position.a8 Position.d8
    | _ => (false, b1)
  | _, _ => (false, b)

/-- The capture test of `move_piece`:
`matches!(move_kind, Capture | EnPassant(_) | Promotion(true))`. -/
def MoveKind.isCaptureKind : MoveKind → Bool
  | .capture => true
  | .enPassant _ => true
  | .promotion true => true
  | _ => false

/-- The tail of `move_piece` (`src/board/utils.rs`) after the castling
block: update the half-move clock, build the (possibly promoted) piece,
place it on the destination, change the turn, and assemble the
`MoveInfo` shell. -/
def finish_move (b4 : Board) (request : MoveRequest) (move_kind : MoveKind)
    (moving_piece : Piece) : ExecResult × Board :=
  let is_pawn_move := moving_piece.piece_type == .pawn
  let is_capture := move_kind.isCaptureKind
  let reset_half_moves := is_pawn_move || is_capture
  let b5 :=
    if reset_half_moves then { b4 with half_moves := 0 }
    else { b4 with half_moves := (b4.half_moves + 1) % 2 ^ 32 }
  let initial_piece_type := moving_piece.piece_type
  let piece_result : Option Piece :=
    match move_kind with
    | .promotion _ =>
      match request.promotion with
      | some promotion_type => some (Piece.new promotion_type.to_piece_type b5.current_turn)
      | none => none
    | _ => some moving_piece
  match piece_result with
  | none => (.panicked, b5)
  | some piece =>
    let b6 := b5.set_position request.end_ (some piece)
    let b7 := b6.change_turn
    (.ok
      { start := request.start
        end_ := request.end_
        piece_type := initial_piece_type
        is_capture := is_capture
        file_disambiguation := false
        rank_disambiguation := false
        move_kind := move_kind
        move_state := none
        promotion := request.promotion }, b7)

/-- The castling block of `move_piece` followed by its tail: dispatch
on `castle_update`, propagating its rook-absent panic. -/
def castle_then_finish (b3 : Board) (request : MoveRequest) (move_kind : MoveKind)
    (moving_piece : Piece) : ExecResult × Board :=
  match castle_update b3 request.start move_kind moving_piece with
  | (true, b4) => (.panicked, b4)
  | (false, b4) => finish_move b4 request move_kind moving_piece

/-- The mutation phase of `move_piece` (`src/board/utils.rs`), entered
after `get_move` succeeded and the castling filter passed: take the
piece, resolve en passant, update the en-passant target, handle the
castling block, then finish with `finish_move`. -/
def apply_move (board : Board) (request : MoveRequest) (move_kind : MoveKind) :
    ExecResult × Board :=
  match board.take_piece request.start with
  | (none, b1) => (.panicked, b1)
  | (some moving_piece, b1) =>
    let b2 :=
      match move_kind with
      | .enPassant en_passant_capture => b1.set_position en_passant_capture none
      | _ => b1
    let b3 :=
      match move_kind with
      | .doubleMove en_passant_target => { b2 with en_passant_target := some en_passant_target }
      | _ => { b2 with en_passant_target := none }
    castle_then_finish b3 request move_kind moving_piece

/-- `move_piece` in `src/board/utils.rs`: resolve the request, reject
castling through an attacked transit square, then mutate the board. -/
def move_piece (board : Board) (request : MoveRequest) : ExecResult × Board :=
  match get_move board request with
  | .error e => (.err e, board)
  | .ok move_kind =>
    let side := board.current_turn
    if (move_kind == .shortCastle || move_kind == .longCastle) &&
        pass_through_check board side move_kind then
      (.err castleThroughCheckErr, board)
    else
      apply_move board request move_kind

/-- `get_all_legal_moves` in `src/board/utils.rs`: keep a pseudo-legal
move when executing it on a copy succeeds and does not leave the moving
side's king in check; drop pieces whose retained move set is empty. -/
def get_all_legal_moves (board : Board) (side : Side) :
    List (Position × List (Position × MoveKind)) :=
  let all_moves := get_all_moves board side
  all_moves.foldl
    (fun all_legal_moves sm =>
      let piece_moves := sm.2.filter
        (fun em =>
          let move_request :=
            match em.2 with
            | .promotion _ => MoveRequest.promotionReq sm.1 em.1 PromotionType.queen
            | _ => MoveRequest.new sm.1 em.1
          let rb := move_piece board move_request
          rb.1.isOk && !(is_in_check rb.2 side))
      if !piece_moves.isEmpty then mapInsert all_legal_moves sm.1 piece_moves
      else all_legal_moves)
    []

/-- `get_move_state` in `src/board/utils.rs`: the classifier cascade. -/
def get_move_state (board : Board) : MoveState :=
  let all_legal_moves := get_all_legal_moves board board.current_turn
  if all_legal_moves.isEmpty then
    if is_in_check board board.current_turn then MoveState.checkmate else MoveState.stalemate
  else if board.half_moves = 100 then MoveState.stalemate
  else if is_in_check board board.current_turn then MoveState.check
  else MoveState.canMove

/-- `possible_en_passant_capture` in `src/board/utils.rs`. -/
def possible_en_passant_capture (board : Board) : Bool :=
  match board.en_passant_target with
  | some target =>
    let side := board.current_turn
    let left_diagonal :=
      match side with
      | .white => Position.from_offset target ⟨-1, -1⟩
      | .black => Position.from_offset target ⟨-1, 1⟩
    let right_diagonal :=
      match side with
      | .white => Position.from_offset target ⟨1, -1⟩
      | .black => Position.from_offset target ⟨-1, -1⟩
    let valid_capture :=
      match left_diagonal with
      | some ld =>
        match get_piece_moves board side ld with
        | .ok moves => (mapLookup moves target).isSome
        | .error _ => false
      | none => false
    if !valid_capture then
      match right_diagonal with
      | some rd =>
        match get_piece_moves board side rd with
        | .ok moves => (mapLookup moves target).isSome
        | .error _ => false
      | none => false
    else valid_capture
  | none => false

/-- Total number of moves in a start-to-moves map (sum of the per-piece
move-set sizes); used to state the 20-legal-moves scenario. -/
def totalMoves (m : List (Position × List (Position × MoveKind))) : Nat :=
  m.foldl (fun acc e => acc + e.2.length) 0

/-- `MoveInfo::to_notation` in `src/board/utils.rs`: algebraic text of
an executed move (castling words, piece letter or pawn-capture file
prefix, disambiguation, capture marker, destination, promotion suffix,
check or checkmate suffix). -/
def MoveInfo.toText (info : MoveInfo) : String :=
  let s := ("")
  let s :=
    match info.move_kind with
    | .shortCastle => s ++ ("O-O")
    | .longCastle => s ++ ("O-O-O")
    | _ =>
      let s :=
        match info.piece_type with
        | .pawn => if info.is_capture then s.push (file.to_char info.start.file) else s
        | .knight => s.push 'N'
        | .bishop => s.push 'B'
        | .rook => s.push 'R'
        | .queen => s.push 'Q'
        | .king => s.push 'K'
      let s := if info.file_disambiguation then s.push (file.to_char info.start.file) else s
      let s := if info.rank_disambiguation then s.push (rank.to_char info.start.rank) else s
      let s := if info.is_capture then s.push 'x' else s
      let s := s ++ info.end_.toText
      match info.promotion with
      | some promotion => (s.push '=').push promotion.to_algebraic
      | none => s
  match info.move_state with
  | some MoveState.check => s.push '+'
  | some MoveState.checkmate => s.push '#'
  | _ => s

/-- Modelled from the spec: `RepetitionState` is used by `src/game.rs`
but its definition is not in the snapshot.  Per spec section 3, it is a
canonical fingerprint of (piece placement, side to move, castling
rights, en-passant availability), explicitly excluding the half-move
and full-move counters. -/
structure RepetitionState where
  placement : List (Option Piece)
  turn : Side
  rights : CastleRights
  en_passant_available : Bool
deriving DecidableEq, Repr

/-- Modelled from the spec: `Board::get_repetition_state` (used by
`src/game.rs`, missing from the snapshot) fingerprints the position;
en-passant availability is taken as `possible_en_passant_capture`,
the otherwise-unused helper `src/board/utils.rs` provides for it. -/
def Board.get_repetition_state (b : Board) : RepetitionState :=
  { placement := (List.range 64).map b.positions
    turn := b.current_turn
    rights := b.castle_rights
    en_passant_available := possible_en_passant_capture b }

/-- The Game session, from `struct Game` in `src/game.rs`.  The `index`
and `history` fields (FEN strings for undo and redo) are not modelled:
no claim observes them and they never feed back into the board, the
classifier or the returned `MoveInfo` within `attempt_move`. -/
structure Game where
  board : Board
  repetitions : List (RepetitionState × Nat)

/-- `Game::new`. -/
def Game.new (board : Board) : Game :=
  { board := board, repetitions := [(board.get_repetition_state, 1)] }

/-- `Game::get_move_state` in `src/game.rs`: threefold repetition
overrides the board-local classification with Stalemate. -/
def Game.get_move_state (g : Game) : MoveState :=
  let stalemate_by_repetition := g.repetitions.any (fun rc => 3 ≤ rc.2)
  if stalemate_by_repetition then MoveState.stalemate
  else Chess.get_move_state g.board

/-- The repetition-table update in `Game::attempt_move`
(`entry().and_modify(|v| *v += 1).or_insert(1)`). -/
def repInsert (reps : List (RepetitionState × Nat)) (key : RepetitionState) :
    List (RepetitionState × Nat) :=
  if reps.any (fun rc => rc.1 == key) then
    reps.map (fun rc => if rc.1 == key then (rc.1, rc.2 + 1) else rc)
  else reps ++ [(key, 1)]

/-- The disambiguation scan in `Game::attempt_move`: does another piece
of the same kind, from the same file (rank flag) or the same rank (file
flag), also legally reach the destination.  The Rust code unwraps the
piece at each legal-move key (always occupied); absence is mapped to
`false` here. -/
def disambiguationFlags (board : Board)
    (all_legal_moves : List (Position × List (Position × MoveKind)))
    (request : MoveRequest) (moving_piece : Piece) : Bool × Bool :=
  all_legal_moves.foldl
    (fun flags pm =>
      if pm.1 ≠ request.start then
        let same_kind_reaches :=
          (match board.get_piece pm.1 with
            | some piece => piece.piece_type == moving_piece.piece_type
            | none => false) &&
          (mapLookup pm.2 request.end_).isSome
        if same_kind_reaches then
          (flags.1 || pm.1.file = request.start.file,
           flags.2 || pm.1.rank = request.start.rank)
        else flags
      else flags)
    (false, false)

/-- `Game::attempt_move` in `src/game.rs`: refuse when the game is
over, validate the request against the legal-move set, compute the
disambiguation flags, execute, classify the resulting state, and record
the repetition key.  (The history push is not modelled, see `Game`.)
The first component of `disambiguationFlags` is the rank flag (set on a
same-file rival), the second the file flag (set on a same-rank rival). -/
def Game.attempt_move (g : Game) (request : MoveRequest) : ExecResult × Game :=
  let move_state := g.get_move_state
  if move_state = MoveState.checkmate ∨ move_state = MoveState.stalemate then
    (.err gameOverErr, g)
  else
    let all_legal_moves := get_all_legal_moves g.board g.board.current_turn
    let valid_move :=
      match mapLookup all_legal_moves request.start with
      | some piece_moves => (mapLookup piece_moves request.end_).isSome
      | none => false
    if !valid_move then (.err invalidMoveGameErr, g)
    else
      match g.board.get_piece request.start with
      | none => (.panicked, g)
      | some moving_piece =>
        let flags := disambiguationFlags g.board all_legal_moves request moving_piece
        let rb := move_piece g.board request
        match rb.1 with
        | .err e => (.err e, { g with board := rb.2 })
        | .panicked => (.panicked, { g with board := rb.2 })
        | .ok move_info =>
          let g1 := { g with board := rb.2 }
          let move_info :=
            { move_info with
                move_state := some g1.get_move_state
                rank_disambiguation := flags.1
                file_disambiguation := flags.2 }
          let g2 :=
            { g1 with repetitions := repInsert g1.repetitions g1.board.get_repetition_state }
          (.ok move_info, g2)

/-- Render the move text of a successful execution (`None` on failure);
packaging of `MoveInfo::to_notation` over an outcome, used to state the
promotion-into-check rendering scenario. -/
def execText : ExecResult → Option String
  | .ok info => some (MoveInfo.toText info)
  | _ => none

/-- The piece at a square is a pawn (used to state the half-move-clock
reset condition: the executor tests the kind of the piece it removed
from the origin square). -/
def isPawnAt (b : Board) (pos : Position) : Bool :=
  match b.get_piece pos with
  | some piece => piece.piece_type == .pawn
  | none => false

/-- Resolution of a request by the generator alone: the move kind the
generated move set of the origin piece assigns to the destination
(`None` when the origin fails or the destination is absent).  This is
the resolution step of `get_move` before its promotion-data check. -/
def resolvedKind (board : Board) (request : MoveRequest) : Option MoveKind :=
  match get_piece_moves board board.current_turn request.start with
  | .ok moves => mapLookup moves request.end_
  | .error _ => none

/-- The Board invariant of spec section 3: a square is in a side's
occupied-square set exactly when the square array stores a piece of
that side there. -/
def sideConsistent (b : Board) : Prop :=
  ∀ pos : Position,
    (pos ∈ b.white_pieces ↔ ∃ pc, b.positions pos.val = some pc ∧ pc.side = Side.white) ∧
    (pos ∈ b.black_pieces ↔ ∃ pc, b.positions pos.val = some pc ∧ pc.side = Side.black)

/-- Chess-sense pawn attack, written from the rules of chess (not from
the code): a pawn attacks the two squares diagonally in front of it,
regardless of what occupies them.  Used to state the castling-filter
gap: the code's pseudo-legal pawn targets omit empty attacked squares. -/
def pawn_attacks_square (side : Side) (p target : Position) : Bool :=
  (match side with
    | Side.white => p.rank + 1 == target.rank
    | Side.black => target.rank + 1 == p.rank) &&
  (p.file + 1 == target.file || target.file + 1 == p.file)

/-- The board of the en-passant scenario, FEN
`rnbqkbnr/1p1ppppp/3P4/p1p5/8/8/PPP1PPPP/RNBQKBNR w KQkq c6 0 4`:
a White pawn on d6, Black pawns on a5 and c5, en-passant target c6. -/
def enPassantBoard : Board :=
  Board.new
    [ (Position.a8, Piece.new .rook .black)
    , (Position.b8, Piece.new .knight .black)
    , (Position.c8, Piece.new .bishop .black)
    , (Position.d8, Piece.new .queen .black)
    , (Position.e8, Piece.new .king .black)
    , (Position.f8, Piece.new .bishop .black)
    , (Position.g8, Piece.new .knight .black)
    , (Position.h8, Piece.new .rook .black)
    , (Position.b7, Piece.new .pawn .black)
    , (Position.d7, Piece.new .pawn .black)
    , (Position.e7, Piece.new .pawn .black)
    , (Position.f7, Piece.new .pawn .black)
    , (Position.g7, Piece.new .pawn .black)
    , (Position.h7, Piece.new .pawn .black)
    , (Position.d6, Piece.new .pawn .white)
    , (Position.a5, Piece.new .pawn .black)
    , (Position.c5, Piece.new .pawn .black)
    , (Position.a2, Piece.new .pawn .white)
    , (Position.b2, Piece.new .pawn .white)
    , (Position.c2, Piece.new .pawn .white)
    , (Position.e2, Piece.new .pawn .white)
    , (Position.f2, Piece.new .pawn .white)
    , (Position.g2, Piece.new .pawn .white)
    , (Position.h2, Piece.new .pawn .white)
    , (Position.a1, Piece.new .rook .white)
    , (Position.b1, Piece.new .knight .white)
    , (Position.c1, Piece.new .bishop .white)
    , (Position.d1, Piece.new .queen .white)
    , (Position.e1, Piece.new .king .white)
    , (Position.f1, Piece.new .bishop .white)
    , (Position.g1, Piece.new .knight .white)
    , (Position.h1, Piece.new .rook .white)
    ]
    Side.white (CastleRights.new true true true true) (some Position.c6) 0 4

/-- The board of the promotion-into-check rendering scenario, FEN
`r1b1kbnr/pP1pqp2/2n4p/2p1p1p1/3P4/1P6/2P1PPPP/RNBQKBNR w KQkq - 1 8`
(from the `src/game.rs` test): a White pawn on b7 can capture the
bishop on c8 and promote, giving check. -/
def promotionCheckBoard : Board :=
  Board.new
    [ (Position.a8, Piece.new .rook .black)
    , (Position.c8, Piece.new .bishop .black)
    , (Position.e8, Piece.new .king .black)
    , (Position.f8, Piece.new .bishop .black)
    , (Position.g8, Piece.new .knight .black)
    , (Position.h8, Piece.new .rook .black)
    , (Position.a7, Piece.new .pawn .black)
    , (Position.b7, Piece.new .pawn .white)
    , (Position.d7, Piece.new .pawn .black)
    , (Position.e7, Piece.new .queen .black)
    , (Position.f7, Piece.new .pawn .black)
    , (Position.c6, Piece.new .knight .black)
    , (Position.h6, Piece.new .pawn .black)
    , (Position.c5, Piece.new .pawn .black)
    , (Position.e5, Piece.new .pawn .black)
    , (Position.g5, Piece.new .pawn .black)
    , (Position.d4, Piece.new .pawn .white)
    , (Position.b3, Piece.new .pawn .white)
    , (Position.c2, Piece.new .pawn .white)
    , (Position.e2, Piece.new .pawn .white)
    , (Position.f2, Piece.new .pawn .white)
    , (Position.g2, Piece.new .pawn .white)
    , (Position.h2, Piece.new .pawn .white)
    , (Position.a1, Piece.new .rook .white)
    , (Position.b1, Piece.new .knight .white)
    , (Position.c1, Piece.new .bishop .white)
    , (Position.d1, Piece.new .queen .white)
    , (Position.e1, Piece.new .king .white)
    , (Position.f1, Piece.new .bishop .white)
    , (Position.g1, Piece.new .knight .white)
    , (Position.h1, Piece.new .rook .white)
    ]
    Side.white (CastleRights.new true true true true) none 1 8

/-- A bare-kings board with the half-move clock at 100: White still has
legal king moves, so it exercises the clock branch of the classifier. -/
def fiftyMoveBoard : Board :=
  Board.new
    [ (Position.e1, Piece.new .king .white)
    , (Position.e8, Piece.new .king .black) ]
    Side.white (CastleRights.new false false false false) none 100 60

/-- A board whose half-move clock sits at `u32::MAX` (reachable through
`fen::parse`, which accepts any `u32` half-move value): two kings and a
White rook, White to move.  The quiet rook move a1-a2 neither moves a
pawn nor captures, so the clock increments — and wraps. -/
def maxClockBoard : Board :=
  Board.new
    [ (Position.e1, Piece.new .king .white)
    , (Position.a1, Piece.new .rook .white)
    , (Position.e8, Piece.new .king .black) ]
    Side.white (CastleRights.new false false false false) none 4294967295 1

/-- A board where White may short-castle although the transit square f1
is, in the chess sense, attacked by the Black pawn on e2: White king
e1 and rook h1 (short-castle rights only), Black pawn e2, Black king
e8. -/
def castleGapBoard : Board :=
  Board.new
    [ (Position.e1, Piece.new .king .white)
    , (Position.h1, Piece.new .rook .white)
    , (Position.e2, Piece.new .pawn .black)
    , (Position.e8, Piece.new .king .black) ]
    Side.white (CastleRights.new true false false false) none 0 1

end Chess

namespace Chess

set_option maxRecDepth 100000


theorem take_piece_fst (b : Board) (p : Position) : (b.take_piece p).1 = b.get_piece p := by
  unfold Board.take_piece Board.get_piece
  rcases h : b.positions p.val with _ | pc
  · simp [h]
  · cases hs : pc.side <;> simp [h, hs]

theorem set_position_half_moves (b : Board) (p : Position) (o : Option Piece) :
    (b.set_position p o).half_moves = b.half_moves := by
  unfold Board.set_position
  repeat' split
  all_goals rfl

theorem take_piece_half_moves (b : Board) (p : Position) :
    (b.take_piece p).2.half_moves = b.half_moves := by
  unfold Board.take_piece
  rcases h : b.positions p.val with _ | pc
  · simp [h]
  · cases hs : pc.side <;> simp [h, hs]

theorem change_turn_half_moves (b : Board) : b.change_turn.half_moves = b.half_moves := by
  unfold Board.change_turn
  cases h : b.current_turn <;> simp [h]

theorem castle_move_rook_half_moves (b : Board) (src dst : Position) :
    (castle_move_rook b src dst).2.half_moves = b.half_moves := by
  unfold castle_move_rook
  rcases ht : b.take_piece src with ⟨op, b2⟩
  have h2 : b2.half_moves = b.half_moves := by
    have hx := take_piece_half_moves b src
    rw [ht] at hx
    exact hx
  rcases op with _ | rook
  · exact h2
  · simp [set_position_half_moves, h2]

theorem castle_update_half_moves (b : Board) (start : Position) (mk : MoveKind) (pc : Piece) :
    (castle_update b start mk pc).2.half_moves = b.half_moves := by
  unfold castle_update
  cases hpt : pc.piece_type <;> cases hs : pc.side <;> simp only [hpt, hs]
  all_goals repeat' split
  all_goals
    first
    | rfl
    | exact castle_move_rook_half_moves _ _ _

theorem finish_move_no_err (b4 : Board) (req : MoveRequest) (mk : MoveKind) (mp : Piece)
    (e : MoveError) : (finish_move b4 req mk mp).1 ≠ ExecResult.err e := by
  unfold finish_move
  repeat' split
  all_goals simp

theorem finish_move_half_moves (b4 : Board) (req : MoveRequest) (mk : MoveKind) (mp : Piece) :
    ((finish_move b4 req mk mp).2).half_moves =
      if mp.piece_type == PieceType.pawn || mk.isCaptureKind then 0
      else (b4.half_moves + 1) % 2 ^ 32 := by
  unfold finish_move
  repeat' split
  all_goals simp_all [set_position_half_moves, change_turn_half_moves, apply_ite]

theorem castle_then_finish_no_err (b3 : Board) (req : MoveRequest) (mk : MoveKind)
    (mp : Piece) (e : MoveError) : (castle_then_finish b3 req mk mp).1 ≠ ExecResult.err e := by
  unfold castle_then_finish
  rcases hcu : castle_update b3 req.start mk mp with ⟨flag, b4⟩
  cases flag <;> simp [finish_move_no_err]

theorem castle_then_finish_half_moves (b3 : Board) (req : MoveRequest) (mk : MoveKind)
    (mp : Piece) (hok : (castle_then_finish b3 req mk mp).1.isOk = true) :
    (castle_then_finish b3 req mk mp).2.half_moves =
      if mp.piece_type == PieceType.pawn || mk.isCaptureKind then 0
      else (b3.half_moves + 1) % 2 ^ 32 := by
  unfold castle_then_finish at hok ⊢
  rcases hcu : castle_update b3 req.start mk mp with ⟨flag, b4⟩
  rw [hcu] at hok
  have h4 : b4.half_moves = b3.half_moves := by
    have h := castle_update_half_moves b3 req.start mk mp
    rw [hcu] at h
    exact h
  cases flag
  · simp [hcu, finish_move_half_moves, h4]
  · simp [ExecResult.isOk] at hok

theorem apply_move_no_err (b : Board) (req : MoveRequest) (mk : MoveKind) (e : MoveError) :
    (apply_move b req mk).1 ≠ ExecResult.err e := by
  unfold apply_move
  rcases ht : b.take_piece req.start with ⟨op, b1⟩
  simp only [ht]
  cases op
  · simp
  · simp [castle_then_finish_no_err]

theorem apply_move_half_moves (b : Board) (req : MoveRequest) (mk : MoveKind)
    (hok : (apply_move b req mk).1.isOk = true) :
    ((apply_move b req mk).2).half_moves =
      if isPawnAt b req.start || mk.isCaptureKind then 0
      else (b.half_moves + 1) % 2 ^ 32 := by
  have hfst := take_piece_fst b req.start
  have hb1 := take_piece_half_moves b req.start
  unfold apply_move at hok ⊢
  rcases ht : b.take_piece req.start with ⟨op, b1⟩
  rw [ht] at hfst hb1 hok
  simp only [ht] at hok ⊢
  rcases op with _ | mp
  · simp [ExecResult.isOk] at hok
  · replace hfst : some mp = b.get_piece req.start := by simpa using hfst
    replace hb1 : b1.half_moves = b.half_moves := by simpa using hb1
    have hpawn : isPawnAt b req.start = (mp.piece_type == PieceType.pawn) := by
      unfold isPawnAt
      rw [← hfst]
    rw [hpawn]
    rw [castle_then_finish_half_moves _ _ _ _ hok]
    cases mk <;> simp [set_position_half_moves, hb1]


theorem move_piece_err_unchanged (b : Board) (req : MoveRequest) (e : MoveError)
    (h : (move_piece b req).1 = ExecResult.err e) : (move_piece b req).2 = b := by
  unfold move_piece at h ⊢
  rcases hk : get_move b req with e' | k
  · simp
  · rw [hk] at h
    cases hcond : (k == MoveKind.shortCastle || k == MoveKind.longCastle) &&
        pass_through_check b b.current_turn k
    · simp [hcond] at h ⊢
      exact absurd h (apply_move_no_err b req k e)
    · simp [hcond]

/-- C2 (amended): for every board and request, a successful
`move_piece` resets the half-move clock to zero exactly when the moved
piece (the occupant of the origin square) is a pawn or the resolved
move kind is a capture (plain capture, en passant, or
promotion-with-capture), and otherwise increments it by exactly one
modulo `2 ^ 32` — the clock is a `u32` and its `+= 1` wraps at
`u32::MAX` (release builds; debug builds panic), so the unqualified
"increments by exactly one" of the original claim fails there, see the
counterexample. -/
theorem move_piece_half_move_clock (b : Board) (req : MoveRequest) (k : MoveKind)
    (hk : get_move b req = Except.ok k) (hok : (move_piece b req).1.isOk = true) :
    ((move_piece b req).2).half_moves =
      if isPawnAt b req.start || k.isCaptureKind then 0
      else (b.half_moves + 1) % 2 ^ 32 := by
  unfold move_piece at hok ⊢
  rw [hk] at hok ⊢
  cases hcond : (k == MoveKind.shortCastle || k == MoveKind.longCastle) &&
      pass_through_check b b.current_turn k
  · simp only [hcond, Bool.false_eq_true, if_false] at hok ⊢
    exact apply_move_half_moves b req k hok
  · simp only [hcond] at hok
    simp [ExecResult.isOk] at hok

theorem attempt_move_err_board_unchanged (g : Game) (req : MoveRequest) (e : MoveError)
    (h : (Game.attempt_move g req).1 = ExecResult.err e) :
    ((Game.attempt_move g req).2).board = g.board := by
  rcases ha : Game.attempt_move g req with ⟨r, g2⟩
  rw [ha] at h
  obtain rfl : r = ExecResult.err e := h
  show g2.board = g.board
  unfold Game.attempt_move at ha
  simp only [] at ha
  repeat' split at ha
  all_goals try ((cases ha) <;> rfl)
  cases ha
  show (move_piece g.board req).2 = g.board
  apply move_piece_err_unchanged
  assumption

theorem mem_setInsert (s : List Position) (p q : Position) :
    q ∈ setInsert s p ↔ q = p ∨ q ∈ s := by
  unfold setInsert
  split
  · rename_i hp
    constructor
    · exact Or.inr
    · rintro (rfl | hqs)
      · exact hp
      · exact hqs
  · simp [List.mem_cons]

theorem mem_setRemove (s : List Position) (p q : Position) :
    q ∈ setRemove s p ↔ q ∈ s ∧ q ≠ p := by
  unfold setRemove
  simp [List.mem_filter]

theorem position_val_inj (p q : Position) : (q.val = p.val) ↔ (q = p) := by
  constructor
  · intro hv
    cases q
    cases p
    cases hv
    rfl
  · intro hv
    rw [hv]

theorem set_position_sideConsistent (b : Board) (p : Position) (o : Option Piece)
    (h : sideConsistent b) : sideConsistent (b.set_position p o) := by
  intro q
  have hq := h q
  have hval := position_val_inj p q
  unfold Board.set_position
  rcases hb : b.positions p.val with _ | pc
  all_goals try (rcases hs : pc.side)
  all_goals rcases o with _ | pc2
  all_goals try (rcases hs2 : pc2.side)
  all_goals simp only [hb]
  all_goals try (simp only [hs])
  all_goals try (simp only [hs2])
  all_goals by_cases hqp : q = p
  all_goals try (subst hqp)
  all_goals simp_all [updateAt, mem_setInsert, mem_setRemove, position_val_inj]

theorem take_piece_sideConsistent (b : Board) (p : Position)
    (h : sideConsistent b) : sideConsistent (b.take_piece p).2 := by
  intro q
  have hq := h q
  unfold Board.take_piece
  rcases hb : b.positions p.val with _ | pc
  all_goals try (rcases hs : pc.side)
  all_goals simp only [hb]
  all_goals try (simp only [hs])
  all_goals by_cases hqp : q = p
  all_goals try (subst hqp)
  all_goals simp_all [updateAt, mem_setInsert, mem_setRemove, position_val_inj]


theorem sideConsistent_of_fields (b b2 : Board) (hpos : b2.positions = b.positions)
    (hw : b2.white_pieces = b.white_pieces) (hbl : b2.black_pieces = b.black_pieces)
    (h : sideConsistent b) : sideConsistent b2 := by
  intro q
  rw [hpos, hw, hbl]
  exact h q

theorem change_turn_sideConsistent (b : Board) (h : sideConsistent b) :
    sideConsistent b.change_turn := by
  unfold Board.change_turn
  cases hc : b.current_turn
  · exact sideConsistent_of_fields b _ rfl rfl rfl h
  · exact sideConsistent_of_fields b _ rfl rfl rfl h

theorem castle_move_rook_sideConsistent (b : Board) (src dst : Position)
    (h : sideConsistent b) : sideConsistent (castle_move_rook b src dst).2 := by
  unfold castle_move_rook
  rcases ht : b.take_piece src with ⟨op, b2⟩
  have h2 : sideConsistent b2 := by
    have hx := take_piece_sideConsistent b src h
    rw [ht] at hx
    exact hx
  rcases op with _ | rook
  · exact h2
  · exact set_position_sideConsistent _ _ _ h2

theorem castle_update_sideConsistent (b : Board) (start : Position) (mk : MoveKind) (pc : Piece)
    (h : sideConsistent b) : sideConsistent (castle_update b start mk pc).2 := by
  unfold castle_update
  cases hpt : pc.piece_type <;> cases hs : pc.side <;> simp only [hpt, hs]
  all_goals repeat' split
  all_goals
    first
    | exact sideConsistent_of_fields b _ rfl rfl rfl h
    | exact castle_move_rook_sideConsistent _ _ _ (sideConsistent_of_fields b _ rfl rfl rfl h)

theorem finish_move_sideConsistent (b4 : Board) (req : MoveRequest) (mk : MoveKind) (mp : Piece)
    (h : sideConsistent b4) : sideConsistent (finish_move b4 req mk mp).2 := by
  have hb5 : ∀ c : Bool, sideConsistent
      (if c = true then { b4 with half_moves := 0 }
       else { b4 with half_moves := (b4.half_moves + 1) % 2 ^ 32 }) := by
    intro c
    cases c
    · exact sideConsistent_of_fields b4 _ rfl rfl rfl h
    · exact sideConsistent_of_fields b4 _ rfl rfl rfl h
  unfold finish_move
  repeat' split
  all_goals
    first
    | exact hb5 _
    | exact change_turn_sideConsistent _ (set_position_sideConsistent _ _ _ (hb5 _))

theorem castle_then_finish_sideConsistent (b3 : Board) (req : MoveRequest) (mk : MoveKind)
    (mp : Piece) (h : sideConsistent b3) : sideConsistent (castle_then_finish b3 req mk mp).2 := by
  unfold castle_then_finish
  rcases hcu : castle_update b3 req.start mk mp with ⟨flag, b4⟩
  have h4 : sideConsistent b4 := by
    have hx := castle_update_sideConsistent b3 req.start mk mp h
    rw [hcu] at hx
    exact hx
  cases flag
  · simp only [hcu]
    exact finish_move_sideConsistent _ _ _ _ h4
  · simp only [hcu]
    exact h4

theorem apply_move_sideConsistent (b : Board) (req : MoveRequest) (mk : MoveKind)
    (h : sideConsistent b) : sideConsistent (apply_move b req mk).2 := by
  unfold apply_move
  rcases ht : b.take_piece req.start with ⟨op, b1⟩
  have h1 : sideConsistent b1 := by
    have hx := take_piece_sideConsistent b req.start h
    rw [ht] at hx
    exact hx
  simp only [ht]
  rcases op with _ | mp
  · exact h1
  · apply castle_then_finish_sideConsistent
    cases mk
    all_goals simp only []
    all_goals
      first
      | exact sideConsistent_of_fields b1 _ rfl rfl rfl h1
      | (rename_i cp
         exact sideConsistent_of_fields (b1.set_position cp none) _ rfl rfl rfl
           (set_position_sideConsistent b1 cp none h1))

theorem move_piece_sideConsistent (b : Board) (req : MoveRequest)
    (h : sideConsistent b) : sideConsistent (move_piece b req).2 := by
  unfold move_piece
  rcases hk : get_move b req with e | k
  · exact h
  · cases hcond : (k == MoveKind.shortCastle || k == MoveKind.longCastle) &&
        pass_through_check b b.current_turn k
    · simp only [hcond, Bool.false_eq_true, if_false]
      exact apply_move_sideConsistent b req k h
    · simp only [hcond, if_true]
      exact h


theorem sideConsistent_empty : sideConsistent Board.empty := by
  intro q
  simp [Board.empty]

theorem sideConsistent_add_pieces (l : List (Position × Piece)) (b : Board)
    (h : sideConsistent b) : sideConsistent (b.add_pieces l) := by
  induction l generalizing b with
  | nil => exact h
  | cons pp t ih => exact ih _ (set_position_sideConsistent _ _ _ h)

theorem sideConsistent_default : sideConsistent Board.default :=
  sideConsistent_add_pieces _ _ sideConsistent_empty

theorem mem_mapInsert {α : Type} (m : List (Position × α)) (k : Position) (w : α)
    (q : Position) (v : α) :
    (q, v) ∈ mapInsert m k w ↔ (q = k ∧ v = w) ∨ ((q, v) ∈ m ∧ q ≠ k) := by
  unfold mapInsert
  simp [List.mem_filter, Prod.mk.injEq]

theorem enPassant_mem_mapInsert (m : List (Position × MoveKind)) (k : Position) (w : MoveKind)
    (hw : ∀ c, w ≠ MoveKind.enPassant c) (dest cap : Position)
    (h : (dest, MoveKind.enPassant cap) ∈ mapInsert m k w) :
    (dest, MoveKind.enPassant cap) ∈ m := by
  rw [mem_mapInsert] at h
  rcases h with ⟨_, hv⟩ | ⟨hm, _⟩
  · exact absurd hv.symm (hw cap)
  · exact hm

theorem from_offset_some (s : Position) (o : Offset) (p : Position)
    (h : Position.from_offset s o = some p) :
    0 ≤ (s.file : Int) + o.file_offset ∧ (s.file : Int) + o.file_offset ≤ 7 ∧
    0 ≤ (s.rank : Int) + o.rank_offset ∧ (s.rank : Int) + o.rank_offset ≤ 7 ∧
    p.val = ((s.rank : Int) + o.rank_offset).toNat * 8 + ((s.file : Int) + o.file_offset).toNat := by
  unfold Position.from_offset at h
  simp only [] at h
  split at h
  · simp at h
  · rename_i hcond
    simp [file.valid, rank.valid] at hcond
    obtain ⟨⟨hf0, hf7⟩, hr0, hr7⟩ := hcond
    injection h with h
    refine ⟨hf0, hf7, hr0, hr7, ?_⟩
    rw [← h]
    rfl

theorem pawn_diagonal_step_enPassant (board : Board) (start : Position) (side : Side)
    (pr : Nat) (m : List (Position × MoveKind)) (d : Offset) (dest cap : Position)
    (h : (dest, MoveKind.enPassant cap) ∈ pawn_diagonal_step board start side pr m d) :
    (dest, MoveKind.enPassant cap) ∈ m ∨
      (Position.from_offset start d = some dest ∧
        pawn_en_passant_move board side dest = some cap) := by
  unfold pawn_diagonal_step at h
  rcases hfo : Position.from_offset start d with _ | np
  · rw [hfo] at h
    exact Or.inl h
  · rw [hfo] at h
    simp only [] at h
    by_cases he : contains_enemy_piece board np side = true
    · simp only [he, if_true] at h
      left
      refine enPassant_mem_mapInsert _ _ _ ?_ _ _ h
      intro c
      split <;> simp
    · simp only [he] at h
      rw [if_neg (by simp) ] at h
      rcases hep : pawn_en_passant_move board side np with _ | cap2
      · rw [hep] at h
        exact Or.inl h
      · rw [hep] at h
        rw [mem_mapInsert] at h
        rcases h with ⟨rfl, hv⟩ | ⟨hm, _⟩
        · injection hv with hv
          right
          exact ⟨rfl, by rw [hep, hv]⟩
        · exact Or.inl hm

theorem ep_cap_ne_white (b : Board) (start dest cap : Position) (d : Offset)
    (hd : d.rank_offset = 1) (hoff : Position.from_offset start d = some dest)
    (hep : pawn_en_passant_move b Side.white dest = some cap) : cap ≠ dest := by
  obtain ⟨hf0, hf7, hr0, hr7, hval⟩ := from_offset_some _ _ _ hoff
  rw [hd] at hr0 hr7 hval
  unfold pawn_en_passant_move at hep
  simp only [] at hep
  split at hep
  · rename_i hguard
    injection hep with hep
    intro hc
    rw [hc] at hep
    have hv := congrArg Position.val hep
    unfold Position.from_file_and_rank Position.rank Position.file at hv
    simp only [] at hv
    omega
  · exact absurd hep (by simp)

theorem ep_cap_ne_black (b : Board) (dest cap : Position)
    (hep : pawn_en_passant_move b Side.black dest = some cap) : cap ≠ dest := by
  unfold pawn_en_passant_move at hep
  simp only [] at hep
  split at hep
  · rename_i hguard
    injection hep with hep
    intro hc
    rw [hc] at hep
    have hv := congrArg Position.val hep
    unfold Position.from_file_and_rank Position.rank Position.file at hv
    simp only [] at hv
    omega
  · exact absurd hep (by simp)

theorem enpassant_cap_ne_dest (b : Board) (start : Position) (side : Side) (dest cap : Position)
    (h : (dest, MoveKind.enPassant cap) ∈ get_pawn_moves b start side) : cap ≠ dest := by
  unfold get_pawn_moves at h
  cases side
  all_goals simp only [] at h
  · rcases pawn_diagonal_step_enPassant _ _ _ _ _ _ _ _ h with h | ⟨hoff, hep⟩
    · rcases pawn_diagonal_step_enPassant _ _ _ _ _ _ _ _ h with h | ⟨hoff, hep⟩
      · repeat' split at h
        all_goals simp [mem_mapInsert] at h
      · exact ep_cap_ne_white b start dest cap _ rfl hoff hep
    · exact ep_cap_ne_white b start dest cap _ rfl hoff hep
  · rcases pawn_diagonal_step_enPassant _ _ _ _ _ _ _ _ h with h | ⟨hoff, hep⟩
    · rcases pawn_diagonal_step_enPassant _ _ _ _ _ _ _ _ h with h | ⟨hoff, hep⟩
      · repeat' split at h
        all_goals simp [mem_mapInsert] at h
      · exact ep_cap_ne_black b dest cap hep
    · exact ep_cap_ne_black b dest cap hep

theorem promotion_requirement (b : Board) (req : MoveRequest) (k : MoveKind)
    (h : resolvedKind b req = some k) :
    ((∃ c, k = MoveKind.promotion c) →
        (get_move b req = Except.error missingPromotionErr ↔ req.promotion = none)) ∧
    ((∀ c, k ≠ MoveKind.promotion c) → get_move b req = Except.ok k) := by
  unfold resolvedKind at h
  unfold get_move
  rcases hm : get_piece_moves b b.current_turn req.start with e | moves
  · rw [hm] at h
    simp at h
  · rw [hm] at h
    simp only [] at h
    simp only [h]
    constructor
    · rintro ⟨c, rfl⟩
      cases hp : req.promotion <;> simp
    · intro hnp
      cases k <;> cases hp : req.promotion <;>
        first
        | exact absurd rfl (hnp _)
        | simp


/-- C1: the standard starting position yields exactly 20 legal moves
for White in total, and `is_in_check` for White is false. -/
theorem start_position_twenty_moves :
    totalMoves (get_all_legal_moves Board.default Side.white) = 20 ∧
    is_in_check Board.default Side.white = false := by
  constructor
  · decide
  · decide

/-- Witness for C2: executing e2-e4 from the start (a pawn double move)
resets the half-move clock to zero. -/
theorem move_piece_half_move_clock_witness :
    get_move Board.default (MoveRequest.new Position.e2 Position.e4) =
        Except.ok (MoveKind.doubleMove Position.e3) ∧
    ((move_piece Board.default (MoveRequest.new Position.e2 Position.e4)).2).half_moves = 0 := by
  refine ⟨by decide, ?_⟩
  rw [move_piece_half_move_clock Board.default (MoveRequest.new Position.e2 Position.e4)
      (MoveKind.doubleMove Position.e3) (by decide) (by decide)]
  decide

/-- Counterexample to C2 as stated: with the half-move clock at
`u32::MAX` (4294967295), the quiet rook move a1-a2 succeeds, moves no
pawn and captures nothing, yet the resulting clock is 0, not the old
clock plus one — the `u32` increment wraps. -/
theorem move_piece_half_move_clock_counterexample :
    get_move maxClockBoard (MoveRequest.new Position.a1 Position.a2) =
        Except.ok MoveKind.move ∧
    isPawnAt maxClockBoard Position.a1 = false ∧
    MoveKind.move.isCaptureKind = false ∧
    (move_piece maxClockBoard (MoveRequest.new Position.a1 Position.a2)).1.isOk = true ∧
    ((move_piece maxClockBoard (MoveRequest.new Position.a1 Position.a2)).2).half_moves = 0 ∧
    ((move_piece maxClockBoard (MoveRequest.new Position.a1 Position.a2)).2).half_moves ≠
      maxClockBoard.half_moves + 1 := by
  refine ⟨by decide, by decide, by decide, by decide, by decide, by decide⟩

/-- C3: `get_move_state` classifies in cascade order: with no legal
moves, Checkmate when in check and Stalemate otherwise; with legal
moves, Stalemate when the half-move clock equals 100, then Check when
the king is attacked, else CanMove.  The clock test precedes the check
test, so a clock of 100 classifies as Stalemate even with legal moves. -/
theorem get_move_state_cascade (b : Board) :
    ((get_all_legal_moves b b.current_turn).isEmpty = true →
        (is_in_check b b.current_turn = true → get_move_state b = MoveState.checkmate) ∧
        (is_in_check b b.current_turn = false → get_move_state b = MoveState.stalemate)) ∧
    ((get_all_legal_moves b b.current_turn).isEmpty = false →
        (b.half_moves = 100 → get_move_state b = MoveState.stalemate) ∧
        (b.half_moves ≠ 100 → is_in_check b b.current_turn = true →
          get_move_state b = MoveState.check) ∧
        (b.half_moves ≠ 100 → is_in_check b b.current_turn = false →
          get_move_state b = MoveState.canMove)) := by
  unfold get_move_state
  constructor
  · intro he
    constructor
    · intro hc
      simp [he, hc]
    · intro hc
      simp [he, hc]
  · intro he
    refine ⟨fun hm => ?_, fun hm hc => ?_, fun hm hc => ?_⟩
    · simp [he, hm]
    · simp [he, hm, hc]
    · simp [he, hm, hc]

/-- Witness for C3: a bare-kings board with the clock at 100 has legal
moves and still classifies as Stalemate. -/
theorem get_move_state_cascade_witness :
    get_move_state fiftyMoveBoard = MoveState.stalemate :=
  ((get_move_state_cascade fiftyMoveBoard).2 (by decide)).1 (by decide)

/-- C4: `is_in_check` returns true exactly when some member of the
opponent's pseudo-legal target set (`get_all_target_positions`, the
same set the legality and castling filters consult) holds this side's
king. -/
theorem is_in_check_iff_king_square_targeted (b : Board) (side : Side) :
    is_in_check b side = true ↔
      ∃ p ∈ get_all_target_positions b side.opponent,
        b.get_piece p = some (Piece.new PieceType.king side) := by
  simp [is_in_check, List.any_eq_true, beq_iff_eq]

/-- C5: the square an `EnPassant` move kind records is never the
destination square, and on the d6-takes-c7 scenario board the executor
removes the enemy pawn from c6 while c7 receives the moving pawn. -/
theorem en_passant_removes_recorded_square :
    (∀ (b : Board) (start : Position) (side : Side) (dest cap : Position),
        (dest, MoveKind.enPassant cap) ∈ get_pawn_moves b start side → cap ≠ dest) ∧
    ((Position.c7, MoveKind.enPassant Position.c6) ∈
        get_pawn_moves enPassantBoard Position.d6 Side.white ∧
      (move_piece enPassantBoard (MoveRequest.new Position.d6 Position.c7)).1.isOk = true ∧
      ((move_piece enPassantBoard (MoveRequest.new Position.d6 Position.c7)).2).get_piece
          Position.c6 = none ∧
      ((move_piece enPassantBoard (MoveRequest.new Position.d6 Position.c7)).2).get_piece
          Position.c7 = some (Piece.new PieceType.pawn Side.white)) :=
  ⟨enpassant_cap_ne_dest, by decide, by decide, by decide, by decide⟩

/-- Witness for C5: in the scenario, the recorded capture square c6
differs from the destination c7. -/
theorem en_passant_removes_recorded_square_witness : Position.c6 ≠ Position.c7 :=
  en_passant_removes_recorded_square.1 enPassantBoard Position.d6 Side.white
    Position.c7 Position.c6 (by decide)

/-- C6: when the generator resolves a request to a promotion move kind
(capturing or not), `get_move` fails with the missing-promotion error
exactly when the request carries no promotion choice; a request
resolving to any other kind succeeds and never raises that error. -/
theorem promotion_choice_required (b : Board) (req : MoveRequest) (k : MoveKind)
    (h : resolvedKind b req = some k) :
    ((∃ c, k = MoveKind.promotion c) →
        (get_move b req = Except.error missingPromotionErr ↔ req.promotion = none)) ∧
    ((∀ c, k ≠ MoveKind.promotion c) → get_move b req = Except.ok k) :=
  promotion_requirement b req k h

/-- Witness for C6: on the promotion scenario board, b7-c8 resolves to
a capturing promotion, and without a promotion choice `get_move` fails
with the missing-promotion error. -/
theorem promotion_choice_required_witness :
    get_move promotionCheckBoard (MoveRequest.new Position.b7 Position.c8) =
      Except.error missingPromotionErr :=
  ((promotion_choice_required promotionCheckBoard
      (MoveRequest.new Position.b7 Position.c8)
      (MoveKind.promotion true) (by decide)).1 ⟨true, rfl⟩).mpr rfl

/-- C7: whenever `move_piece` or `Game::attempt_move` returns an error,
the board is exactly as it was before the call: validation is resolved
before any mutation begins. -/
theorem error_leaves_board_unchanged :
    (∀ (b : Board) (req : MoveRequest) (e : MoveError),
        (move_piece b req).1 = ExecResult.err e → (move_piece b req).2 = b) ∧
    (∀ (g : Game) (req : MoveRequest) (e : MoveError),
        (Game.attempt_move g req).1 = ExecResult.err e →
          ((Game.attempt_move g req).2).board = g.board) :=
  ⟨move_piece_err_unchanged, attempt_move_err_board_unchanged⟩

/-- Witness for C7: the illegal request e2-e5 fails and leaves both the
bare board and the Game session's board untouched. -/
theorem error_leaves_board_unchanged_witness :
    (move_piece Board.default (MoveRequest.new Position.e2 Position.e5)).2 = Board.default ∧
    ((Game.attempt_move (Game.new Board.default)
        (MoveRequest.new Position.e2 Position.e5)).2).board = Board.default :=
  ⟨error_leaves_board_unchanged.1 _ _ invalidMoveErr (by decide),
   error_leaves_board_unchanged.2 _ _ invalidMoveGameErr (by decide)⟩

/-- C8: every board-mutating operation (writing a square, taking a
piece, adding a piece, and the full move executor with castling,
en passant and promotion) preserves the invariant that a square's
membership in the per-side occupied sets matches the side of the piece
the square array stores there. -/
theorem side_sets_match_square_array :
    (∀ (b : Board) (pos : Position) (op : Option Piece),
        sideConsistent b → sideConsistent (b.set_position pos op)) ∧
    (∀ (b : Board) (pos : Position),
        sideConsistent b → sideConsistent (b.take_piece pos).2) ∧
    (∀ (b : Board) (pos : Position) (pc : Piece),
        sideConsistent b → sideConsistent (b.add_piece pos pc)) ∧
    (∀ (b : Board) (req : MoveRequest),
        sideConsistent b → sideConsistent (move_piece b req).2) :=
  ⟨set_position_sideConsistent, take_piece_sideConsistent,
   fun b pos pc h => set_position_sideConsistent b pos (some pc) h,
   move_piece_sideConsistent⟩

/-- Witness for C8: the start position satisfies the invariant and it
is preserved across executing e2-e4. -/
theorem side_sets_match_square_array_witness :
    sideConsistent (move_piece Board.default (MoveRequest.new Position.e2 Position.e4)).2 :=
  side_sets_match_square_array.2.2.2 Board.default
    (MoveRequest.new Position.e2 Position.e4) sideConsistent_default

/-- C9: on the scenario board, the capture-promotion b7xc8=Q through
`Game::attempt_move` yields Check and renders exactly as "bxc8=Q+". -/
theorem promotion_capture_check_renders :
    execText (Game.attempt_move (Game.new promotionCheckBoard)
        (MoveRequest.promotionReq Position.b7 Position.c8 PromotionType.queen)).1 =
      some ("bxc8=Q+") := by
  decide

/-- C10: on `castleGapBoard` the short castle e1-g1 is accepted as
legal although the transit square f1 is attacked, in the chess sense,
by the Black pawn on e2: the empty f1 is absent from Black's
pseudo-legal target set, so the castling-through-check filter does not
reject the castle. -/
theorem castling_through_pawn_attacked_square :
    (mapLookup (get_all_legal_moves castleGapBoard Side.white) Position.e1).map
        (fun ms => mapLookup ms Position.g1) = some (some MoveKind.shortCastle) ∧
    castleGapBoard.get_piece Position.e2 = some (Piece.new PieceType.pawn Side.black) ∧
    pawn_attacks_square Side.black Position.e2 Position.f1 = true ∧
    Position.f1 ∉ get_all_target_positions castleGapBoard Side.black := by
  refine ⟨by decide, by decide, by decide, by decide⟩

end Chess
